import Mathlib

/-!
Verification of the resilient extraction pipeline of the YT-Links-Scraper
repository (src/app.py) against its natural-language specification.

The Python source is shallowly embedded: strings are manipulated as
`List Char` (Python `str` over the ASCII fragment, which is all the
pipeline's fixed patterns use), JSON trees as an inductive `JValue`,
`time.time()` and `random.uniform` as explicit rational parameters, and
the Selenium driver as a record of oracles (page source, regex-search
results, JSON-decode results, CSS-selector query results).  Python
exceptions are modelled with `Except PyExn`; the distinct exception
classes that the source's `except` clauses distinguish are the
constructors of `PyExn`.
-/

/-! ### Character and list utilities (Python `str` operations on ASCII) -/

/-- ASCII lower-casing of one character, the fragment of Python
`str.lower` exercised by the pipeline's fixed keyword tables. -/
def asciiLower (c : Char) : Char :=
  if 65 ≤ c.toNat ∧ c.toNat ≤ 90 then Char.ofNat (c.toNat + 32) else c

/-- Python `s.lower()` on the character list of a string. -/
def charsToLower (l : List Char) : List Char := l.map asciiLower

/-- Python substring containment `pat in hay` (`str.__contains__`). -/
def containsSub (hay pat : List Char) : Bool :=
  match hay with
  | [] => pat.isEmpty
  | _ :: rest => pat.isPrefixOf hay || containsSub rest pat

/-- Substring containment on `String`, Python `pat in s`. -/
def strContains (s pat : String) : Bool := containsSub s.data pat.data

/-- Python `s.startswith(p)`. -/
def strStartsWith (s p : String) : Bool := p.data.isPrefixOf s.data

/-- Python whitespace, as recognised by `str.strip()` (ASCII fragment). -/
def isPySpace (c : Char) : Bool :=
  c == ' ' || c == '\t' || c == '\n' || c == '\r' || c == '\x0b' || c == '\x0c'

/-- Python `s.strip()`. -/
def stripChars (l : List Char) : List Char :=
  ((l.dropWhile isPySpace).reverse.dropWhile isPySpace).reverse

/-- The part of `l` strictly before the first occurrence of `c`
(whole list when `c` is absent): Python `s.split(c, 1)[0]`. -/
def takeUntil (c : Char) (l : List Char) : List Char := l.takeWhile (fun x => x != c)

/-- The part of `l` strictly after the first occurrence of `c`
(empty when `c` is absent): the tail of Python `s.split(c, 1)`. -/
def dropThrough (c : Char) (l : List Char) : List Char := (l.dropWhile (fun x => x != c)).tail

/-- Split at the first occurrence of `c`: Python `s.split(c, 1)` when it
yields two parts, `none` when `c` is absent. -/
def splitAtFirst (c : Char) : List Char → Option (List Char × List Char)
  | [] => none
  | x :: rest =>
    if x == c then some ([], rest)
    else
      match splitAtFirst c rest with
      | some (a, b) => some (x :: a, b)
      | none => none

/-- Python `s.split(sep)`: splits on every occurrence, keeping empty
fields (`"".split(sep) == [""]`). -/
def charSplit (sep : Char) : List Char → List (List Char)
  | [] => [[]]
  | x :: rest =>
    if x == sep then [] :: charSplit sep rest
    else
      match charSplit sep rest with
      | [] => [[x]]
      | g :: gs => (x :: g) :: gs

/-- Value of a hexadecimal digit character, `none` for non-hex characters. -/
def hexVal (c : Char) : Option Nat :=
  if 48 ≤ c.toNat ∧ c.toNat ≤ 57 then some (c.toNat - 48)
  else if 97 ≤ c.toNat ∧ c.toNat ≤ 102 then some (c.toNat - 87)
  else if 65 ≤ c.toNat ∧ c.toNat ≤ 70 then some (c.toNat - 55)
  else none

/-! ### `urllib.parse` model: `unquote`, `parse_qs`, `urlparse` -/

/-- Percent-decoding scanner of `urllib.parse.unquote`: a `%` followed by
two hex digits becomes the denoted byte, malformed escapes are kept
literally.  Faithful to CPython for ASCII byte sequences (multi-byte
UTF-8 runs are outside the fragment exercised here). -/
def unquoteChars : List Char → List Char
  | [] => []
  | c :: rest =>
    if c = '%' then
      match rest with
      | a :: b :: r2 =>
        match hexVal a, hexVal b with
        | some hi, some lo => Char.ofNat (16 * hi + lo) :: unquoteChars r2
        | _, _ => '%' :: unquoteChars (a :: b :: r2)
      | [a] => '%' :: unquoteChars [a]
      | [] => ['%']
    else c :: unquoteChars rest

/-- `urllib.parse.unquote` on strings. -/
def unquote (s : String) : String := ⟨unquoteChars s.data⟩

/-- The `+` → space replacement that `parse_qsl` applies before decoding
each field (`unquote_plus`). -/
def plusToSpace (l : List Char) : List Char :=
  l.map (fun c => if c == '+' then ' ' else c)

/-- One field of `urllib.parse.parse_qsl` with default arguments: empty
fields and fields without `=` are dropped, as are fields with an empty
value (`keep_blank_values=False`); name and value are decoded with
`unquote_plus`. -/
def qslField (field : List Char) : Option (String × String) :=
  if field.isEmpty then none
  else
    match splitAtFirst '=' field with
    | none => none
    | some (n, v) =>
      if v.isEmpty then none
      else some (⟨unquoteChars (plusToSpace n)⟩, ⟨unquoteChars (plusToSpace v)⟩)

/-- `urllib.parse.parse_qsl(query)` with default arguments. -/
def parse_qsl (q : List Char) : List (String × String) :=
  (charSplit '&' q).filterMap qslField

/-- `parse_qs(query)[key][0]`: first value bound to `key`, `none` when
the key is absent from the parsed query (Python `KeyError` guard
`if key in query_params`). -/
def qsFirst (q : List Char) (key : String) : Option String :=
  ((parse_qsl q).find? (fun p => p.1 == key)).map (·.2)

/-- Characters CPython's `urlsplit` allows inside a scheme. -/
def isSchemeChar (c : Char) : Bool :=
  (65 ≤ c.toNat ∧ c.toNat ≤ 90) || (97 ≤ c.toNat ∧ c.toNat ≤ 122) ||
  (48 ≤ c.toNat ∧ c.toNat ≤ 57) || c == '+' || c == '-' || c == '.'

/-- Whether `c` is an ASCII letter. -/
def isAsciiAlpha (c : Char) : Bool :=
  (65 ≤ c.toNat ∧ c.toNat ≤ 90) || (97 ≤ c.toNat ∧ c.toNat ≤ 122)

/-- `urlsplit` scheme removal: when the text before the first `:` is a
well-formed scheme (leading ASCII letter, scheme characters throughout),
return the text after the colon; otherwise the input unchanged. -/
def splitScheme (l : List Char) : List Char :=
  match splitAtFirst ':' l with
  | none => l
  | some ([], _) => l
  | some (b :: bs, after) =>
    if isAsciiAlpha b && (b :: bs).all isSchemeChar then after else l

/-- `urlparse(url).netloc`: after scheme removal, the text between a
leading `//` and the next `/`, `?` or `#`; empty when the remainder does
not start with `//`.  CPython's `urlsplit` additionally *raises*
`ValueError` for netlocs with unbalanced brackets; that error condition
is modelled separately by `urlsplitRaises` and consulted at every call
site whose surrounding `try`/`except` observes it. -/
def netlocChars (l : List Char) : List Char :=
  match splitScheme l with
  | '/' :: '/' :: r => r.takeWhile (fun c => !(c == '/' || c == '?' || c == '#'))
  | _ => []

/-- `urlparse(url).netloc` on strings. -/
def netlocOf (s : String) : String := ⟨netlocChars s.data⟩

/-- CPython `urlsplit`'s `ValueError("Invalid IPv6 URL")` condition: the
netloc contains `[` without `]` or `]` without `[` (checked on the raw
netloc, before any lower-casing).  URLs without a `//` part have an
empty netloc and never raise. -/
def urlsplitRaises (l : List Char) : Bool :=
  let netloc := netlocChars l
  (netloc.contains '[' && !netloc.contains ']') ||
  (netloc.contains ']' && !netloc.contains '[')

/-- `urlparse(url).query`: the text after the first `?` of the part
before the first `#`. -/
def queryChars (l : List Char) : List Char := dropThrough '?' (takeUntil '#' l)

/-! ### `app.py` URL processing: `extract_clean_url`, `is_valid_external_url` -/

/-- `app.py` `extract_clean_url`: parse the redirect URL's query string,
and when a `q` parameter is present return its first value decoded with
`unquote` (a second decode on top of the one `parse_qs` already
performed); `None` otherwise.  The `except Exception` around the parse
fires on string input exactly when `urlparse` raises `ValueError` on an
unbalanced-bracket netloc, and then also returns `None`. -/
def extract_clean_url (redirect_url : String) : Option String :=
  if urlsplitRaises redirect_url.data then none
  else
    match qsFirst (queryChars redirect_url.data) "q" with
    | some v => some (unquote v)
    | none => none

/-- The fixed exclusion list of `is_valid_external_url`. -/
def exclude_domains : List String :=
  ["youtube.com", "youtu.be", "googleapis.com", "googleusercontent.com",
   "gstatic.com", "google.com", "googlevideo.com"]

/-- Python `domain.replace("www.", "")`: removes every (non-overlapping,
leftmost-first) occurrence of `www.`, not only a leading one. -/
def removeWwwAll : List Char → List Char
  | 'w' :: 'w' :: 'w' :: '.' :: rest => removeWwwAll rest
  | c :: rest => c :: removeWwwAll rest
  | [] => []

/-- Python `url.startswith("http")`. -/
def startsWithHttp (s : String) : Bool := ['h', 't', 't', 'p'].isPrefixOf s.data

/-- `app.py` `is_valid_external_url`: false for empty or non-`http`…
input; false when `urlparse` raises (the bare `except: return False`);
otherwise true iff no excluded domain is a substring of the lower-cased
netloc with every `www.` occurrence removed. -/
def is_valid_external_url (url : String) : Bool :=
  if url.data.isEmpty || !startsWithHttp url then false
  else if urlsplitRaises url.data then false
  else
    let domain := removeWwwAll (charsToLower (netlocChars url.data))
    !(exclude_domains.any (fun ex => containsSub domain ex.data))

example : is_valid_external_url "https://example.org/x" = true := by decide
example : is_valid_external_url "https://www.youtube.com/watch" = false := by decide
example : is_valid_external_url "http://[::1" = false := by decide
example : extract_clean_url "http://[?q=x" = none := by decide
example : extract_clean_url "https://www.youtube.com/redirect?q=https%3A%2F%2Fexample.org" =
    some "https://example.org" := by decide

/-! ### JSON values and Python primitive operations -/

/-- JSON trees as produced by `json.loads`; `null` doubles as Python
`None` (which is what `json.loads` maps `null` to). -/
inductive JValue where
  | null
  | bool (b : Bool)
  | num (q : ℚ)
  | str (s : String)
  | arr (xs : List JValue)
  | obj (kvs : List (String × JValue))

/-- The Python exception classes the source's `except` clauses
distinguish. -/
inductive PyExn where
  | keyError
  | indexError
  | typeError
  | attributeError
deriving DecidableEq

/-- Whether `parse_links_from_json`'s per-record
`except (KeyError, IndexError, TypeError)` catches the exception. -/
def PyExn.caughtByRecordLoop : PyExn → Bool
  | .attributeError => false
  | _ => true

/-- Whether `find_links_in_json_enhanced`'s
`except (KeyError, TypeError)` catches the exception. -/
def PyExn.caughtByContainer : PyExn → Bool
  | .keyError => true
  | .typeError => true
  | _ => false

/-- Python truthiness of a JSON value. -/
def pyTruthy : JValue → Bool
  | .null => false
  | .bool b => b
  | .num q => decide (q ≠ 0)
  | .str s => !s.data.isEmpty
  | .arr xs => !xs.isEmpty
  | .obj kvs => !kvs.isEmpty

/-- Truthiness of a nullable value (`None` is falsy). -/
def truthyOpt : Option JValue → Bool
  | none => false
  | some v => pyTruthy v

/-- Python `isinstance(v, (dict, list))`. -/
def isDictOrList : JValue → Bool
  | .obj _ => true
  | .arr _ => true
  | _ => false

/-- Dictionary lookup (first binding, as for `json.loads` output, whose
keys are unique). -/
def jLookup (kvs : List (String × JValue)) (k : String) : Option JValue :=
  (kvs.find? (fun p => p.1 == k)).map (·.2)

/-- Python `needle in v`: key membership for dicts, element membership
for lists, substring for strings, `TypeError` otherwise. -/
def pyIn (needle : String) : JValue → Except PyExn Bool
  | .obj kvs => .ok (kvs.any (fun p => p.1 == needle))
  | .arr xs =>
    .ok (xs.any (fun x => match x with | .str s => s == needle | _ => false))
  | .str s => .ok (containsSub s.data needle.data)
  | _ => .error .typeError

/-- Python `v[k]` with a string key: `KeyError` for missing dict keys,
`TypeError` for every non-dict. -/
def pyGetItem (v : JValue) (k : String) : Except PyExn JValue :=
  match v with
  | .obj kvs =>
    match jLookup kvs k with
    | some x => .ok x
    | none => .error .keyError
  | _ => .error .typeError

/-- Python `v.get(k, dflt)`: `AttributeError` on non-dicts (only `dict`
has `.get`). -/
def pyGet (v : JValue) (k : String) (dflt : JValue) : Except PyExn JValue :=
  match v with
  | .obj kvs => .ok ((jLookup kvs k).getD dflt)
  | _ => .error .attributeError

/-- Python `v[0]`: head of a list (`IndexError` when empty), `KeyError`
for dicts (no key `0`), first character for strings, `TypeError`
otherwise. -/
def pyItemZero : JValue → Except PyExn JValue
  | .arr [] => .error .indexError
  | .arr (x :: _) => .ok x
  | .obj _ => .error .keyError
  | .str s =>
    match s.data with
    | [] => .error .indexError
    | c :: _ => .ok (.str ⟨[c]⟩)
  | _ => .error .typeError

/-! ### `parse_links_from_json` and its record-shape resolution -/

/-- One extracted link record, `{'title': ..., 'url': ...}`; the title
may be any JSON value (the source never coerces it), the URL is always a
string by the time it is appended. -/
structure ExtractedLink where
  title : JValue
  url : String

/-- First of the title-like keys bound to a string in `kvs`
(the first loop of the source's generic `find_text`/`find_url`). -/
def findByKeys (kvs : List (String × JValue)) : List String → Option String
  | [] => none
  | k :: ks =>
    match jLookup kvs k with
    | some (.str s) => some s
    | _ => findByKeys kvs ks

mutual

/-- The source's generic fallback `find_text`: on a dict, first a scan of
the keys `content`, `simpleText`, `text`, `title` for a string value,
then a depth-first search through the dict's values keeping the first
truthy result; `None` on every non-dict. -/
def find_text : JValue → Option String
  | .obj kvs =>
    match findByKeys kvs ["content", "simpleText", "text", "title"] with
    | some s => some s
    | none => findTextValues kvs
  | _ => none

/-- The value scan of `find_text` (`if result: return result` keeps only
truthy, i.e. non-empty, recursive results). -/
def findTextValues : List (String × JValue) → Option String
  | [] => none
  | (_, v) :: rest =>
    match find_text v with
    | some s => if s ≠ "" then some s else findTextValues rest
    | none => findTextValues rest

end

mutual

/-- The source's generic fallback `find_url`, like `find_text` with the
keys `url`, `href`. -/
def find_url : JValue → Option String
  | .obj kvs =>
    match findByKeys kvs ["url", "href"] with
    | some s => some s
    | none => findUrlValues kvs
  | _ => none

/-- The value scan of `find_url`. -/
def findUrlValues : List (String × JValue) → Option String
  | [] => none
  | (_, v) :: rest =>
    match find_url v with
    | some s => if s ≠ "" then some s else findUrlValues rest
    | none => findUrlValues rest

end

/-- The shape dispatch of `parse_links_from_json`'s loop body: the
nested view-model shape, then the flat `title`/`url` shape, then the
navigation-endpoint shape, then the generic `find_text`/`find_url`
fallback; produces the record's `(title, redirect_url)` pair or the
Python exception the corresponding attribute chain raises. -/
def recordTitleUrl (item : JValue) : Except PyExn (JValue × JValue) := do
  let b1 ← pyIn "channelExternalLinkViewModel" item
  if b1 then do
    let link_info ← pyGetItem item "channelExternalLinkViewModel"
    let t1 ← pyGet link_info "title" (.obj [])
    let title ← pyGet t1 "content" (.str "No Title")
    let l1 ← pyGet link_info "link" (.obj [])
    let cr ← pyGet l1 "commandRuns" (.arr [.obj []])
    let c0 ← pyItemZero cr
    let ot ← pyGet c0 "onTap" (.obj [])
    let ic ← pyGet ot "innertubeCommand" (.obj [])
    let ue ← pyGet ic "urlEndpoint" (.obj [])
    let url ← pyGet ue "url" .null
    pure (title, url)
  else do
    let bt ← pyIn "title" item
    let bFlat ← if bt then pyIn "url" item else pure false
    if bFlat then do
      let title ← pyGetItem item "title"
      let url ← pyGetItem item "url"
      pure (title, url)
    else do
      let bn ← pyIn "navigationEndpoint" item
      if bn then do
        let t ← pyGet item "text" (.obj [])
        let title ← pyGet t "simpleText" (.str "Link")
        let ne ← pyGetItem item "navigationEndpoint"
        let ue ← pyGet ne "urlEndpoint" (.obj [])
        let url ← pyGet ue "url" .null
        pure (title, url)
      else
        let title : JValue :=
          match find_text item with
          | some s => if s ≠ "" then .str s else .str "Link"
          | none => .str "Link"
        let url : JValue :=
          match find_url item with
          | some s => .str s
          | none => .null
        pure (title, url)

/-- The final `if clean_url and is_valid_external_url(clean_url)` of
the loop body: append the record when the clean URL is a truthy string
passing validation; skip silently when falsy; a truthy non-string
reaches `url.startswith` inside `is_valid_external_url` (outside that
function's `try`) and raises `AttributeError`. -/
def appendIfValid (title cleanUrl : JValue) : Except PyExn (Option ExtractedLink) :=
  if pyTruthy cleanUrl then
    match cleanUrl with
    | .str s =>
      if is_valid_external_url s then .ok (some ⟨title, s⟩) else .ok none
    | _ => .error .attributeError
  else .ok none

/-- The common tail of the loop body: when `redirect_url` is truthy, run
it through `extract_clean_url` if it contains `/redirect?`, then append
via `appendIfValid`. -/
def finishRecord (title url : JValue) : Except PyExn (Option ExtractedLink) :=
  if pyTruthy url then
    match pyIn "/redirect?" url with
    | .error e => .error e
    | .ok hasRedirect =>
      appendIfValid title
        (if hasRedirect then
          match url with
          | .str s =>
            match extract_clean_url s with
            | some c => .str c
            | none => .null
          | _ => .null
        else url)
  else .ok none

/-- One iteration of `parse_links_from_json`'s record loop, up to the
`try`. -/
def interpretRecord (item : JValue) : Except PyExn (Option ExtractedLink) :=
  match recordTitleUrl item with
  | .error e => .error e
  | .ok (t, u) => finishRecord t u

/-- The record loop of `parse_links_from_json`: records raising
`KeyError`, `IndexError` or `TypeError` are skipped, every other
exception (notably `AttributeError`) propagates and aborts the batch. -/
def parseLinksLoop : List JValue → Except PyExn (List ExtractedLink)
  | [] => .ok []
  | item :: rest =>
    match interpretRecord item with
    | .ok (some l) =>
      match parseLinksLoop rest with
      | .ok ls => .ok (l :: ls)
      | .error e => .error e
    | .ok none => parseLinksLoop rest
    | .error e => if e.caughtByRecordLoop then parseLinksLoop rest else .error e

/-- `app.py` `parse_links_from_json`: empty result on non-list input,
otherwise the record loop. -/
def parse_links_from_json : JValue → Except PyExn (List ExtractedLink)
  | .arr items => parseLinksLoop items
  | _ => .ok []

/-! ### `find_links_in_json_enhanced` -/

/-- The `try` block guarding the container keys in
`find_links_in_json_enhanced`: `value.get('links', [])` when `'links' in
value`, then `headerLinks`, then `customLinks`; `none` when the value has
none of the three (fall-through to the recursive descent). -/
def containerLinks (v : JValue) : Except PyExn (Option JValue) := do
  let b1 ← pyIn "links" v
  if b1 then do
    let r ← pyGet v "links" (.arr [])
    pure (some r)
  else do
    let b2 ← pyIn "headerLinks" v
    if b2 then do
      let r ← pyGet v "headerLinks" (.arr [])
      pure (some r)
    else do
      let b3 ← pyIn "customLinks" v
      if b3 then do
        let r ← pyGet v "customLinks" (.arr [])
        pure (some r)
      else pure none

/-- The three container key names of `find_links_in_json_enhanced`. -/
def isContainerKey (k : String) : Bool :=
  k == "aboutChannelViewModel" || k == "channelMetadataRenderer" ||
  k == "c4TabbedHeaderRenderer"

/-- The four intermediate key names the source lists before its first
recursive descent. -/
def isDescentKey (k : String) : Bool :=
  k == "contents" || k == "tabs" || k == "metadata" || k == "header"

mutual

/-- `app.py` `find_links_in_json_enhanced`: depth-first search of a JSON
tree for one of the known link containers; returns on the first truthy
find.  `KeyError`/`TypeError` from the container probe skips the rest of
the processing for that key (`continue`); any other exception, notably
the `AttributeError` raised by `value.get` when a list or a string passes
the membership test, propagates. -/
def find_links_in_json_enhanced : JValue → Except PyExn (Option JValue)
  | .obj kvs => fljePairs kvs
  | .arr xs => fljeList xs
  | _ => .ok none

/-- The dict iteration of `find_links_in_json_enhanced`.  For each
entry, after the container probe (whose `KeyError`/`TypeError` skip the
rest of the entry via `continue`), the source recurses into the value
once guarded by the intermediate key names and once unguarded; being
pure, the repeated call yields the same value both times. -/
def fljePairs : List (String × JValue) → Except PyExn (Option JValue)
  | [] => .ok none
  | (k, v) :: rest =>
    if isContainerKey k then
      match containerLinks v with
      | .error e => if e.caughtByContainer then fljePairs rest else .error e
      | .ok (some r) => .ok (some r)
      | .ok none =>
        if isDescentKey k && isDictOrList v then
          match find_links_in_json_enhanced v with
          | .error e => .error e
          | .ok found =>
            if truthyOpt found then .ok found
            else if isDictOrList v then
              match find_links_in_json_enhanced v with
              | .error e => .error e
              | .ok found2 =>
                if truthyOpt found2 then .ok found2 else fljePairs rest
            else fljePairs rest
        else if isDictOrList v then
          match find_links_in_json_enhanced v with
          | .error e => .error e
          | .ok found2 =>
            if truthyOpt found2 then .ok found2 else fljePairs rest
        else fljePairs rest
    else
      if isDescentKey k && isDictOrList v then
        match find_links_in_json_enhanced v with
        | .error e => .error e
        | .ok found =>
          if truthyOpt found then .ok found
          else if isDictOrList v then
            match find_links_in_json_enhanced v with
            | .error e => .error e
            | .ok found2 =>
              if truthyOpt found2 then .ok found2 else fljePairs rest
          else fljePairs rest
      else if isDictOrList v then
        match find_links_in_json_enhanced v with
        | .error e => .error e
        | .ok found2 =>
          if truthyOpt found2 then .ok found2 else fljePairs rest
      else fljePairs rest

/-- The list iteration of `find_links_in_json_enhanced`. -/
def fljeList : List JValue → Except PyExn (Option JValue)
  | [] => .ok none
  | x :: rest =>
    if isDictOrList x then
      match find_links_in_json_enhanced x with
      | .error e => .error e
      | .ok found =>
        if truthyOpt found then .ok found else fljeList rest
    else fljeList rest

end

/-! ### `extract_links_multiple_methods` -/

/-- One DOM element as observed through the Selenium accessors the
source uses: `element.text`, `get_attribute('aria-label')`,
`get_attribute('title')`, `get_attribute('href')` (attribute accessors
return `None` when absent). -/
structure DomElement where
  textContent : String
  ariaLabel : Option String
  titleAttr : Option String
  href : Option String

/-- The Selenium driver, abstracted to the oracles the pipeline
consults: the page source, `re.search(pattern, html, re.DOTALL)`
restricted to its first capture group (`none` = no match), `json.loads`
(`none` = `JSONDecodeError`), and `find_elements(By.CSS_SELECTOR, sel)`. -/
structure Driver where
  page_source : String
  searchPattern : String → Option String
  loadsJson : String → Option JValue
  findElements : String → List DomElement

/-- The four `ytInitialData` regex patterns of the source (method 1). -/
def enhanced_patterns : List String :=
  ["var ytInitialData = (\\\x7b.*?\\\x7d);</script>",
   "window\\[\"ytInitialData\"\\] = (\\\x7b.*?\\\x7d);",
   "ytInitialData\\s*=\\s*(\\\x7b.*?\\\x7d);",
   "window\\.ytInitialData\\s*=\\s*(\\\x7b.*?\\\x7d);"]

/-- The six CSS selectors of the source (method 2). -/
def link_selectors : List String :=
  ["a[href*=\"/redirect?\"]",
   "a[href*=\"youtube.com/redirect\"]",
   "[data-target-new-window=\"true\"]",
   ".channel-external-link",
   ".ytd-channel-external-link-view-model",
   "yt-formatted-string a[href^=\"http\"]"]

/-- Method 1 of `extract_links_multiple_methods`: try each pattern in
order; on a regex match, a successful JSON parse and a truthy container
find, return `parse_links_from_json` of the container with the success
message; `JSONDecodeError` or a falsy find falls through to the next
pattern.  Exceptions from the tree search or the record parsing
propagate. -/
def jsonMethod (d : Driver) : List String → Except PyExn (Option (List ExtractedLink × String))
  | [] => .ok none
  | p :: ps =>
    match d.searchPattern p with
    | none => jsonMethod d ps
    | some jtext =>
      match d.loadsJson jtext with
      | none => jsonMethod d ps
      | some data =>
        match find_links_in_json_enhanced data with
        | .error e => .error e
        | .ok none => jsonMethod d ps
        | .ok (some links_data) =>
          if pyTruthy links_data then
            match parse_links_from_json links_data with
            | .error e => .error e
            | .ok links => .ok (some (links, "Success (Enhanced JSON method)"))
          else jsonMethod d ps

/-- The element's display text:
`element.text.strip() or aria-label or title or 'Link'`
(Python `or` keeps the first truthy operand). -/
def elemTitle (e : DomElement) : String :=
  let t : String := ⟨stripChars e.textContent.data⟩
  if t ≠ "" then t
  else
    match e.ariaLabel with
    | some s =>
      if s ≠ "" then s
      else
        match e.titleAttr with
        | some s2 => if s2 ≠ "" then s2 else "Link"
        | none => "Link"
    | none =>
      match e.titleAttr with
      | some s2 => if s2 ≠ "" then s2 else "Link"
      | none => "Link"

/-- The per-element body of method 2: redirect hrefs go through
`extract_clean_url` and `is_valid_external_url`; other hrefs are
appended as soon as they start with `http` and do not contain the
substring `youtube.com`. -/
def processElement (e : DomElement) : Option ExtractedLink :=
  match e.href with
  | none => none
  | some href =>
    if href = "" then none
    else if strContains href "/redirect?" || strContains href "youtube.com/redirect" then
      match extract_clean_url href with
      | some clean =>
        if clean ≠ "" && is_valid_external_url clean then
          some ⟨.str (elemTitle e), clean⟩
        else none
      | none => none
    else if startsWithHttp href && !strContains href "youtube.com" then
      some ⟨.str (elemTitle e), href⟩
    else none

/-- Method 2 of `extract_links_multiple_methods`: the first selector
with at least one element and at least one extracted link wins; at most
10 elements are examined per selector. -/
def domMethod (d : Driver) : List String → Option (List ExtractedLink × String)
  | [] => none
  | sel :: rest =>
    let els := d.findElements sel
    if els.isEmpty then domMethod d rest
    else
      let ex := (els.take 10).filterMap processElement
      if ex.isEmpty then domMethod d rest
      else some (ex, "Success (DOM method with " ++ sel ++ ")")

/-- `app.py` `extract_links_multiple_methods`: method 1 (embedded JSON),
then method 2 (DOM selectors), then the no-links outcome. -/
def extract_links_multiple_methods (d : Driver) :
    Except PyExn (List ExtractedLink × String) :=
  match jsonMethod d enhanced_patterns with
  | .error e => .error e
  | .ok (some r) => .ok r
  | .ok none =>
    match domMethod d link_selectors with
    | some r => .ok r
    | none => .ok ([], "No links found with any method")

/-! ### Rate limiter -/

/-- `INITIAL_DELAY = 2` (the minimum delay). -/
def INITIAL_DELAY : ℚ := 2

/-- `MAX_DELAY = 30`. -/
def MAX_DELAY : ℚ := 30

/-- `rate_limiter_state`, with times and delays as rationals. -/
structure RateLimiterState where
  last_request_time : ℚ
  current_delay : ℚ
  consecutive_failures : Nat
  blocked_until : ℚ
deriving DecidableEq

/-- The module-level initial `rate_limiter_state`. -/
def initialRateLimiterState : RateLimiterState :=
  { last_request_time := 0, current_delay := INITIAL_DELAY,
    consecutive_failures := 0, blocked_until := 0 }

/-- `app.py` `handle_rate_limit_response`, with `time.time()` passed as
`now` and the `random.uniform(120, 300)` sample passed as `r`:
blocked → double the delay capped at `MAX_DELAY`, bump the failure
count, block until `now + r`; not blocked → reset the failure count and
shrink the delay by 10% floored at `INITIAL_DELAY`. -/
def handle_rate_limit_response (now r : ℚ) (is_blocked : Bool)
    (s : RateLimiterState) : RateLimiterState :=
  if is_blocked then
    { s with consecutive_failures := s.consecutive_failures + 1,
             current_delay := min (s.current_delay * 2) MAX_DELAY,
             blocked_until := now + r }
  else
    { s with consecutive_failures := 0,
             current_delay := max (s.current_delay * (9 / 10)) INITIAL_DELAY }

/-- The state effect of `smart_rate_limit`: after the (modelled-away)
sleeps, `last_request_time` is set to the current time. -/
def smart_rate_limit (now : ℚ) (s : RateLimiterState) : RateLimiterState :=
  { s with last_request_time := now }

/-! ### Circuit breaker -/

/-- `CIRCUIT_BREAKER_THRESHOLD = 5`. -/
def CIRCUIT_BREAKER_THRESHOLD : Nat := 5

/-- `circuit_breaker_state`. -/
structure CircuitBreakerState where
  failures : Nat
  last_failure_time : ℚ
  is_open : Bool
deriving DecidableEq

/-- The module-level initial `circuit_breaker_state`. -/
def initialCircuitBreakerState : CircuitBreakerState :=
  { failures := 0, last_failure_time := 0, is_open := false }

/-- What one call of the wrapped function does: return a value or raise. -/
inductive CallOutcome (α : Type) where
  | ok (a : α)
  | raises
deriving DecidableEq

/-- What the `circuit_breaker` wrapper does for one call: short-circuit
with the `([], "Circuit breaker open - too many failures")` pair, return
the wrapped function's value, or re-raise its exception. -/
inductive CBResult (α : Type) where
  | circuitOpen
  | returned (a : α)
  | raised
deriving DecidableEq

/-- The `try`/`except` body of the `circuit_breaker` wrapper, entered
once any open breaker has been dealt with: success resets `failures` and
`is_open`; an exception increments `failures`, stamps
`last_failure_time` with the current time (`tFail`) and opens the
breaker at the threshold, then re-raises. -/
def circuitBreakerBody {α : Type} (tFail : ℚ) (f : CallOutcome α)
    (s : CircuitBreakerState) : CircuitBreakerState × CBResult α :=
  match f with
  | .ok a => ({ s with failures := 0, is_open := false }, .returned a)
  | .raises =>
    let n := s.failures + 1
    ({ failures := n, last_failure_time := tFail,
       is_open := if CIRCUIT_BREAKER_THRESHOLD ≤ n then true else s.is_open },
     .raised)

/-- `app.py` `circuit_breaker` wrapper, one call: when the breaker is
open and `time.time()` (`tCheck`) is within 300 s of the last failure,
short-circuit without invoking the wrapped function; when open and past
the 300 s cooldown, half-open (clear `is_open`, reset `failures`) and
proceed; otherwise proceed directly. -/
def circuit_breaker_call {α : Type} (tCheck tFail : ℚ) (f : CallOutcome α)
    (s : CircuitBreakerState) : CircuitBreakerState × CBResult α :=
  if s.is_open then
    if 300 < tCheck - s.last_failure_time then
      circuitBreakerBody tFail f { s with is_open := false, failures := 0 }
    else (s, .circuitOpen)
  else circuitBreakerBody tFail f s

/-- One call through the wrapper as an event of a trace: the time of the
open-check, the time an exception would be stamped with, and the wrapped
function's outcome. -/
structure CBCall (α : Type) where
  tCheck : ℚ
  tFail : ℚ
  outcome : CallOutcome α

/-- Run a sequence of calls through the circuit breaker, recording after
each call the new state and the last timestamp that call consulted
(`tCheck` for a short-circuited call, `tFail` otherwise). -/
def cbRun {α : Type} (s : CircuitBreakerState) :
    List (CBCall α) → List (CircuitBreakerState × ℚ)
  | [] => []
  | c :: rest =>
    let step := circuit_breaker_call c.tCheck c.tFail c.outcome s
    let tEnd : ℚ := match step.2 with | .circuitOpen => c.tCheck | _ => c.tFail
    (step.1, tEnd) :: cbRun step.1 rest

/-! ### `get_links_from_channel_url_optimized` body -/

/-- Outcome of the `WebDriverWait` block: ready, `TimeoutException`
(returned as the timeout message), or some other exception (escaping to
the outer handler). -/
inductive WaitOutcome where
  | ready
  | timeout
  | otherExn (e : PyExn)

/-- The externally-determined events of one fetch: the current time, the
`random.uniform(120, 300)` sample, the result of `get_driver()` (`none`
when WebDriver setup failed — `setup_selenium_driver` catches its own
exceptions and returns `None`), whether `driver.get` raised, and the
wait outcome. -/
structure FetchEnv where
  tNow : ℚ
  rBlock : ℚ
  driverOpt : Option Driver
  navExn : Option PyExn
  waitOutcome : WaitOutcome

/-- The block-signal phrases checked against the lower-cased page. -/
def block_phrases : List String := ["unusual traffic", "blocked", "captcha", "robot"]

/-- `str(e)` for the modelled exception classes (the exact text never
matters to the claims). -/
def exnStr : PyExn → String
  | .keyError => "KeyError"
  | .indexError => "IndexError"
  | .typeError => "TypeError"
  | .attributeError => "AttributeError"

/-- The body of `get_links_from_channel_url_optimized` (the function the
`circuit_breaker` decorator wraps), for a string argument.  Every
exception of the `try` block is converted by `except Exception` into an
`([], "Error: ...")` return, so the body is a total function into a
result pair; the `finally` (driver pooling) has no modelled state. -/
def get_links_body (env : FetchEnv) (channel_url : String)
    (rs : RateLimiterState) : RateLimiterState × (List ExtractedLink × String) :=
  if !startsWithHttp channel_url then
    (rs, ([], "Invalid channel URL: " ++ channel_url))
  else
    let rs1 := smart_rate_limit env.tNow rs
    match env.driverOpt with
    | none => (rs1, ([], "Failed to get WebDriver"))
    | some d =>
      match env.navExn with
      | some e =>
        (handle_rate_limit_response env.tNow env.rBlock true rs1,
         ([], "Error: " ++ exnStr e))
      | none =>
        match env.waitOutcome with
        | .timeout => (rs1, ([], "Page load timeout"))
        | .otherExn e =>
          (handle_rate_limit_response env.tNow env.rBlock true rs1,
           ([], "Error: " ++ exnStr e))
        | .ready =>
          if block_phrases.any
              (fun p => containsSub (charsToLower d.page_source.data) p.data) then
            (handle_rate_limit_response env.tNow env.rBlock true rs1,
             ([], "Rate limited by YouTube"))
          else
            match extract_links_multiple_methods d with
            | .error e =>
              (handle_rate_limit_response env.tNow env.rBlock true rs1,
               ([], "Error: " ++ exnStr e))
            | .ok (links, msg) =>
              (handle_rate_limit_response env.tNow env.rBlock false rs1,
               (links, msg))

/-! ### `categorize_links` and the orchestrator's column assignment -/

/-- `SOCIAL_MEDIA_KEYWORDS`, in source (insertion) order. -/
def SOCIAL_MEDIA_KEYWORDS : List (String × List String) :=
  [("Facebook", ["facebook.com"]),
   ("Instagram", ["instagram.com"]),
   ("Twitter", ["twitter.com", "x.com"]),
   ("LinkedIn", ["linkedin.com"]),
   ("TikTok", ["tiktok.com"])]

/-- The per-row category lists, one field per output column
(`Website`, the five social networks, `Other Links`). -/
structure CategorizedLinks where
  website : List String
  facebook : List String
  instagram : List String
  twitter : List String
  linkedin : List String
  tiktok : List String
  otherLinks : List String
deriving DecidableEq

/-- All seven lists empty. -/
def emptyCategorized : CategorizedLinks := ⟨[], [], [], [], [], [], []⟩

/-- The first category whose keyword list has a member contained in the
lower-cased URL (`break` on the first match), `none` when no category
matches. -/
def matchedCategory (url : String) : Option String :=
  (SOCIAL_MEDIA_KEYWORDS.find?
    (fun p => p.2.any (fun kw => containsSub (charsToLower url.data) kw.data))).map (·.1)

/-- Prepend a URL to the list of the matched category (unmatched URLs go
to `Other Links`; `Website` is never filled by `categorize_links`). -/
def addToCategory (cat : Option String) (u : String) (c : CategorizedLinks) :
    CategorizedLinks :=
  match cat with
  | some "Facebook" => { c with facebook := u :: c.facebook }
  | some "Instagram" => { c with instagram := u :: c.instagram }
  | some "Twitter" => { c with twitter := u :: c.twitter }
  | some "LinkedIn" => { c with linkedin := u :: c.linkedin }
  | some "TikTok" => { c with tiktok := u :: c.tiktok }
  | _ => { c with otherLinks := u :: c.otherLinks }

/-- `app.py` `categorize_links` (the dict of column → URL list; the
accompanying `new_columns` value is the fixed column list).  Defined by
recursion on the head so that each bucket keeps the iteration order. -/
def categorize_links : List ExtractedLink → CategorizedLinks
  | [] => emptyCategorized
  | l :: rest => addToCategory (matchedCategory l.url) l.url (categorize_links rest)

/-- The orchestrator's per-row column assignment
(`process_dataframe_concurrent`): the `Website` cell was just written
from the (always empty) `Website` list, so when the `Other Links` list
is non-empty its first URL is popped into `Website` and the rest stay in
`Other Links`. -/
def assignColumns (c : CategorizedLinks) : CategorizedLinks :=
  if c.website.isEmpty then
    match c.otherLinks with
    | [] => c
    | o :: os => { c with website := [o], otherLinks := os }
  else c

/-- Concatenation of the seven per-column URL lists. -/
def allUrls (c : CategorizedLinks) : List String :=
  c.website ++ c.facebook ++ c.instagram ++ c.twitter ++ c.linkedin ++
  c.tiktok ++ c.otherLinks

/-! ### Batch orchestrator -/

/-- One spreadsheet cell: missing (`pd.isna`) or a string value. -/
inductive CellValue where
  | na
  | strv (s : String)

/-- `pd.isna(v) or not str(v).strip()`. -/
def cellBlank : CellValue → Bool
  | .na => true
  | .strv s => (stripChars s.data).isEmpty

/-- `str(v)` for the two cell shapes. -/
def cellStr : CellValue → String
  | .na => "nan"
  | .strv s => s

/-- `app.py` `process_single_url`: blank cells are skipped with the
`Empty URL` message; otherwise the (decorated) fetch runs inside
`try`/`except`, so an exception becomes a `(index, None, str(e))`
triple; non-empty link lists are categorized.  The fetch is passed as an
oracle covering the composed cache/circuit-breaker/fetch stack. -/
def process_single_url
    (fetch : String → Except PyExn (List ExtractedLink × String))
    (item : Nat × CellValue) : Nat × Option CategorizedLinks × String :=
  let (index, channel_url) := item
  if cellBlank channel_url then (index, none, "Empty URL")
  else
    match fetch (cellStr channel_url) with
    | .error e => (index, none, exnStr e)
    | .ok (links, message) =>
      if links.isEmpty then (index, none, message)
      else (index, some (categorize_links links), message)

/-- The orchestrator's dispatch (`process_dataframe_concurrent`): every
item is processed independently; one row's outcome never affects
another's. -/
def process_rows (fetch : String → Except PyExn (List ExtractedLink × String))
    (items : List (Nat × CellValue)) : List (Nat × Option CategorizedLinks × String) :=
  items.map (process_single_url fetch)

/-- The orchestrator's error recording for one completed row: rows with
links contribute nothing; link-less rows contribute
`Row (i+1): message`, except when the message contains
`No links found`. -/
def rowError (r : Nat × Option CategorizedLinks × String) : Option String :=
  match r with
  | (_, some _, _) => none
  | (index, none, message) =>
    if strContains message "No links found" then none
    else some ("Row " ++ toString (index + 1) ++ ": " ++ message)

/-- The `errors` list accumulated over the completed rows. -/
def collect_errors (rs : List (Nat × Option CategorizedLinks × String)) :
    List String :=
  rs.filterMap rowError

/-! ### Spec-side definitions (used to state claims, not taken from the
source) -/

/-- Spec-side: an RFC 3986 unreserved character (kept verbatim by
percent-encoders). -/
def isUnreservedChar (c : Char) : Bool :=
  isAsciiAlpha c || (48 ≤ c.toNat ∧ c.toNat ≤ 57) ||
  c == '-' || c == '_' || c == '.' || c == '~'

/-- Spec-side: the uppercase hexadecimal digit of a value below 16. -/
def hexDigitUpper (n : Nat) : Char :=
  if n < 10 then Char.ofNat (48 + n) else Char.ofNat (55 + n)

/-- Spec-side: the standard percent-encoding of one ASCII character
(unreserved characters kept, everything else `%`-escaped with uppercase
hex). -/
def percentEncodeChar (c : Char) : List Char :=
  if isUnreservedChar c then [c]
  else ['%', hexDigitUpper (c.toNat / 16), hexDigitUpper (c.toNat % 16)]

/-- Spec-side: percent-encoding of a string. -/
def percentEncode (s : String) : String := ⟨(s.data.map percentEncodeChar).flatten⟩

/-- Spec-side: strip one leading `www.` from a host, as the spec's words
"after stripping a leading www." describe. -/
def stripLeadingWww (s : String) : String :=
  if ['w', 'w', 'w', '.'].isPrefixOf s.data then ⟨s.data.drop 4⟩ else s

/-- Spec-side: a well-formed http(s) URL in the sense the spec's
testable properties use: an `http://` or `https://` prefix and a
non-empty host. -/
def wellFormedHttpUrl (url : String) : Bool :=
  (strStartsWith url "http://" || strStartsWith url "https://") &&
  !(netlocChars url.data).isEmpty


/-! ## Claims -/

/-! ### C5: rate controller outcome handling -/

/-- Claim C5: one blocked verdict sets the delay to exactly
`min(2*previous, MAX_DELAY)`, increments `consecutive_failures` and sets
`blocked_until` to `now` plus a value in `[120, 300]` (hence strictly in
the future); one non-blocked verdict resets `consecutive_failures` and
sets the delay to `max(0.9*previous, INITIAL_DELAY)`; and a delay
within `[INITIAL_DELAY, MAX_DELAY]` stays within that interval after
either verdict. -/
theorem C5_rate_controller_outcomes (s : RateLimiterState) (now r : ℚ)
    (h1 : 120 ≤ r) (h2 : r ≤ 300) :
    ((handle_rate_limit_response now r true s).current_delay
        = min (2 * s.current_delay) MAX_DELAY
      ∧ (handle_rate_limit_response now r true s).consecutive_failures
        = s.consecutive_failures + 1
      ∧ now + 120 ≤ (handle_rate_limit_response now r true s).blocked_until
      ∧ (handle_rate_limit_response now r true s).blocked_until ≤ now + 300
      ∧ now < (handle_rate_limit_response now r true s).blocked_until)
    ∧ ((handle_rate_limit_response now r false s).consecutive_failures = 0
      ∧ (handle_rate_limit_response now r false s).current_delay
        = max (s.current_delay * (9 / 10)) INITIAL_DELAY)
    ∧ (INITIAL_DELAY ≤ s.current_delay → s.current_delay ≤ MAX_DELAY →
        ∀ b : Bool,
          INITIAL_DELAY ≤ (handle_rate_limit_response now r b s).current_delay
          ∧ (handle_rate_limit_response now r b s).current_delay ≤ MAX_DELAY) := by
  refine ⟨⟨?_, ?_, ?_, ?_, ?_⟩, ⟨?_, ?_⟩, ?_⟩
  · simp [handle_rate_limit_response, mul_comm]
  · simp [handle_rate_limit_response]
  · simp only [handle_rate_limit_response, if_pos]
    linarith
  · simp only [handle_rate_limit_response, if_pos]
    linarith
  · simp only [handle_rate_limit_response, if_pos]
    linarith
  · simp [handle_rate_limit_response]
  · simp [handle_rate_limit_response]
  · intro hlo hhi b
    cases b with
    | true =>
      simp only [handle_rate_limit_response, if_pos]
      constructor
      · refine le_min ?_ ?_ <;> simp [INITIAL_DELAY, MAX_DELAY] at * <;> linarith
      · exact min_le_right _ _
    | false =>
      simp only [handle_rate_limit_response, if_neg]
      constructor
      · exact le_max_right _ _
      · refine max_le ?_ ?_ <;> simp [INITIAL_DELAY, MAX_DELAY] at * <;> linarith

/-- Witness for C5 at a concrete state and sample. -/
theorem C5_witness :
    (handle_rate_limit_response 7 120 true initialRateLimiterState).current_delay
      = min (2 * initialRateLimiterState.current_delay) MAX_DELAY
    ∧ (handle_rate_limit_response 7 120 false initialRateLimiterState).consecutive_failures
      = 0 :=
  ⟨(C5_rate_controller_outcomes initialRateLimiterState 7 120 (by norm_num)
      (by norm_num)).1.1,
   (C5_rate_controller_outcomes initialRateLimiterState 7 120 (by norm_num)
      (by norm_num)).2.1.1⟩

/-! ### C3: circuit breaker state invariant -/

/-- The time-independent half of the invariant: an open breaker has hit
the threshold. -/
def cbThresholdInv (s : CircuitBreakerState) : Prop :=
  s.is_open = true → CIRCUIT_BREAKER_THRESHOLD ≤ s.failures

theorem cb_step_inv {α : Type} (tc tf : ℚ) (f : CallOutcome α)
    (s : CircuitBreakerState) (hJ : cbThresholdInv s) :
    cbThresholdInv (circuit_breaker_call tc tf f s).1
    ∧ ((circuit_breaker_call tc tf f s).1.is_open = true →
        (match (circuit_breaker_call tc tf f s).2 with
          | .circuitOpen => tc
          | _ => tf) - (circuit_breaker_call tc tf f s).1.last_failure_time ≤ 300) := by
  unfold circuit_breaker_call circuitBreakerBody cbThresholdInv
  by_cases hopen : s.is_open = true
  · by_cases htime : (300 : ℚ) < tc - s.last_failure_time
    · simp only [hopen, if_true, htime]
      cases f with
      | ok a => simp
      | raises =>
        simp only [CIRCUIT_BREAKER_THRESHOLD]
        norm_num
    · simp only [hopen, if_true, htime, if_false]
      refine ⟨fun _ => hJ hopen, fun _ => ?_⟩
      linarith [not_lt.mp htime]
  · simp only [Bool.not_eq_true] at hopen
    simp only [hopen, Bool.false_eq_true, if_false]
    cases f with
    | ok a => simp
    | raises =>
      simp only []
      constructor
      · intro h
        by_cases hth : CIRCUIT_BREAKER_THRESHOLD ≤ s.failures + 1
        · exact hth
        · simp only [if_neg hth, hopen] at h
          exact absurd h (by simp)
      · intro _
        linarith

theorem cbRun_inv {α : Type} (calls : List (CBCall α)) (s : CircuitBreakerState)
    (hJ : cbThresholdInv s) :
    ∀ p ∈ cbRun s calls,
      p.1.is_open = true →
        CIRCUIT_BREAKER_THRESHOLD ≤ p.1.failures
        ∧ p.2 - p.1.last_failure_time ≤ 300 := by
  induction calls generalizing s with
  | nil => intro p hp; simp [cbRun] at hp
  | cons c rest ih =>
    intro p hp
    simp only [cbRun, List.mem_cons] at hp
    rcases hp with hp | hp
    · intro hopen
      have h := cb_step_inv c.tCheck c.tFail c.outcome s hJ
      subst hp
      refine ⟨h.1 hopen, ?_⟩
      exact h.2 hopen
    · exact ih (circuit_breaker_call c.tCheck c.tFail c.outcome s).1
        (cb_step_inv c.tCheck c.tFail c.outcome s hJ).1 p hp

/-- Claim C3: along any sequence of calls through the `circuit_breaker`
wrapper (arbitrary outcomes and times) started from the program's
initial state, whenever the breaker is open after a call, the failure
count has reached the threshold (5) and the last timestamp the call
consulted is within the 300 s cooldown of `last_failure_time`. -/
theorem C3_circuit_breaker_invariant {α : Type} (calls : List (CBCall α)) :
    ∀ p ∈ cbRun initialCircuitBreakerState calls,
      p.1.is_open = true →
        CIRCUIT_BREAKER_THRESHOLD ≤ p.1.failures
        ∧ p.2 - p.1.last_failure_time ≤ 300 :=
  cbRun_inv calls initialCircuitBreakerState
    (by intro h; simp [initialCircuitBreakerState] at h)

/-- Witness for C3: after five straight failures (a concrete trace),
the reached open state satisfies both invariant clauses. -/
theorem C3_witness :
    CIRCUIT_BREAKER_THRESHOLD ≤
        ({ failures := 5, last_failure_time := 5, is_open := true } :
          CircuitBreakerState).failures
    ∧ ((5 : ℚ)) - ({ failures := 5, last_failure_time := 5, is_open := true } :
          CircuitBreakerState).last_failure_time ≤ 300 :=
  C3_circuit_breaker_invariant (α := Unit)
    [⟨1, 1, .raises⟩, ⟨2, 2, .raises⟩, ⟨3, 3, .raises⟩,
     ⟨4, 4, .raises⟩, ⟨5, 5, .raises⟩]
    (⟨{ failures := 5, last_failure_time := 5, is_open := true }, (5 : ℚ)⟩)
    (by decide) rfl

/-! ### C4: circuit breaker behaviour -/

/-- Final state after running a sequence of calls through the wrapper. -/
def cbFinal {α : Type} (s : CircuitBreakerState) : List (CBCall α) → CircuitBreakerState
  | [] => s
  | c :: rest => cbFinal (circuit_breaker_call c.tCheck c.tFail c.outcome s).1 rest

/-- Claim C4: (a) five consecutive failures from the initial state open
the breaker, stamping the last failure time; (b) while open and within
the 300 s cooldown, a call short-circuits to the circuit-open outcome
without consulting the wrapped function's outcome and leaves the state
unchanged; (c) on the first call past the cooldown the breaker
half-opens (clears `is_open`, resets `failures`) and the wrapped
function is invoked from that half-open state; (d) a successful call
(from a closed breaker) resets `failures` to 0 and `is_open` to false. -/
theorem C4_circuit_breaker_behaviour {α : Type} :
    (∀ t1 t2 t3 t4 t5 u1 u2 u3 u4 u5 : ℚ,
      cbFinal (α := α) initialCircuitBreakerState
          [⟨t1, u1, .raises⟩, ⟨t2, u2, .raises⟩, ⟨t3, u3, .raises⟩,
           ⟨t4, u4, .raises⟩, ⟨t5, u5, .raises⟩]
        = { failures := 5, last_failure_time := u5, is_open := true })
    ∧ (∀ (s : CircuitBreakerState) (tc tf : ℚ) (f : CallOutcome α),
        s.is_open = true → tc - s.last_failure_time ≤ 300 →
        circuit_breaker_call tc tf f s = (s, .circuitOpen))
    ∧ (∀ (s : CircuitBreakerState) (tc tf : ℚ) (f : CallOutcome α),
        s.is_open = true → 300 < tc - s.last_failure_time →
        circuit_breaker_call tc tf f s
          = circuitBreakerBody tf f { s with is_open := false, failures := 0 })
    ∧ (∀ (s : CircuitBreakerState) (tc tf : ℚ) (a : α),
        s.is_open = false →
        circuit_breaker_call tc tf (.ok a) s
          = ({ s with failures := 0, is_open := false }, .returned a)) := by
  refine ⟨?_, ?_, ?_, ?_⟩
  · intro t1 t2 t3 t4 t5 u1 u2 u3 u4 u5
    simp [cbFinal, circuit_breaker_call, circuitBreakerBody,
      initialCircuitBreakerState, CIRCUIT_BREAKER_THRESHOLD]
  · intro s tc tf f hopen htime
    simp [circuit_breaker_call, hopen, not_lt.mpr htime]
  · intro s tc tf f hopen htime
    simp [circuit_breaker_call, hopen, htime]
  · intro s tc tf a hclosed
    simp [circuit_breaker_call, circuitBreakerBody, hclosed]

/-- Witness for C4: the concrete run — five failures at seconds 1–5
open the breaker; a call at second 100 short-circuits; a call at second
400 half-opens and, succeeding, closes the breaker with zero failures. -/
theorem C4_witness :
    cbFinal (α := Unit) initialCircuitBreakerState
        [⟨1, 1, .raises⟩, ⟨2, 2, .raises⟩, ⟨3, 3, .raises⟩,
         ⟨4, 4, .raises⟩, ⟨5, 5, .raises⟩]
      = { failures := 5, last_failure_time := 5, is_open := true }
    ∧ circuit_breaker_call (α := Unit) 100 101 (.ok ())
        { failures := 5, last_failure_time := 5, is_open := true }
      = ({ failures := 5, last_failure_time := 5, is_open := true }, .circuitOpen)
    ∧ circuit_breaker_call (α := Unit) 400 401 (.ok ())
        { failures := 5, last_failure_time := 5, is_open := true }
      = ({ failures := 0, last_failure_time := 5, is_open := false }, .returned ()) := by
  refine ⟨(C4_circuit_breaker_behaviour (α := Unit)).1 1 2 3 4 5 1 2 3 4 5, ?_, ?_⟩
  · exact (C4_circuit_breaker_behaviour (α := Unit)).2.1 _ 100 101 _ rfl (by norm_num)
  · have h := (C4_circuit_breaker_behaviour (α := Unit)).2.2.1
      { failures := 5, last_failure_time := 5, is_open := true } 400 401 (.ok ())
      rfl (by norm_num)
    rw [h]
    rfl

/-! ### C2: the wrapped fetch never raises, so the breaker never trips -/

/-- One call entering through `get_links_from_channel_url_optimized`:
the wrapper's check/fail times plus everything that determines the
body's behaviour.  (The rate-limiter state is taken per call; this
generalises the actual threading of the single global state.) -/
structure FetchCall where
  tCheck : ℚ
  tFail : ℚ
  env : FetchEnv
  url : String
  rstate : RateLimiterState

/-- The outcome the circuit breaker observes for such a call: the body
is a total Lean function into a result pair, so the outcome is always
`ok` — the embedded `except Exception` handler leaves nothing to
re-raise. -/
def fetchOutcome (c : FetchCall) : CallOutcome (List ExtractedLink × String) :=
  .ok (get_links_body c.env c.url c.rstate).2

/-- The circuit-breaker trace generated by a sequence of such calls. -/
def fetchTrace (cs : List FetchCall) : List (CBCall (List ExtractedLink × String)) :=
  cs.map (fun c => ⟨c.tCheck, c.tFail, fetchOutcome c⟩)

theorem cbRun_ok_all_initial (cs : List (CBCall (List ExtractedLink × String)))
    (hok : ∀ c ∈ cs, c.outcome ≠ .raises) :
    ∀ p ∈ cbRun initialCircuitBreakerState cs, p.1 = initialCircuitBreakerState := by
  have key : ∀ (c : CBCall (List ExtractedLink × String)),
      c.outcome ≠ .raises →
      (circuit_breaker_call c.tCheck c.tFail c.outcome initialCircuitBreakerState).1
        = initialCircuitBreakerState := by
    intro c hc
    cases h : c.outcome with
    | ok a =>
      simp [circuit_breaker_call, circuitBreakerBody, initialCircuitBreakerState, h]
    | raises => exact absurd h hc
  induction cs with
  | nil => intro p hp; simp [cbRun] at hp
  | cons c rest ih =>
    intro p hp
    simp only [cbRun, List.mem_cons] at hp
    rcases hp with hp | hp
    · rw [hp, key c (hok c (List.mem_cons_self c rest))]
    · have := key c (hok c (List.mem_cons_self c rest))
      rw [this] at hp
      exact ih (fun c' hc' => hok c' (List.mem_cons_of_mem c hc')) p hp

/-- Claim C2: every call entering through
`get_links_from_channel_url_optimized` hands the circuit breaker an
`ok` outcome (the body converts every exception into an
`([], message)` pair), so along any sequence of such calls the
breaker's exception branch never runs: the state stays exactly the
initial one — in particular `is_open` remains `false` — and every call
is passed through to the wrapped function (never short-circuited,
never re-raised). -/
theorem C2_circuit_breaker_never_trips (cs : List FetchCall) :
    (∀ c ∈ fetchTrace cs, c.outcome ≠ .raises)
    ∧ (∀ p ∈ cbRun initialCircuitBreakerState (fetchTrace cs),
        p.1 = initialCircuitBreakerState ∧ p.1.is_open = false)
    ∧ (∀ c : FetchCall, ∀ s : CircuitBreakerState, s.is_open = false →
        circuit_breaker_call c.tCheck c.tFail (fetchOutcome c) s
          = ({ s with failures := 0, is_open := false },
             .returned (get_links_body c.env c.url c.rstate).2)) := by
  have hok : ∀ c ∈ fetchTrace cs, c.outcome ≠ CallOutcome.raises := by
    intro c hc
    simp only [fetchTrace, List.mem_map] at hc
    obtain ⟨c', _, rfl⟩ := hc
    simp [fetchOutcome]
  refine ⟨hok, ?_, ?_⟩
  · intro p hp
    have h := cbRun_ok_all_initial (fetchTrace cs) hok p hp
    exact ⟨h, by rw [h]; rfl⟩
  · intro c s hclosed
    simp [circuit_breaker_call, circuitBreakerBody, fetchOutcome, hclosed]

/-- Witness for C2 at a concrete call (an invalid-URL fetch): the
breaker passes the call through and remains closed. -/
theorem C2_witness :
    circuit_breaker_call 0 0
        (fetchOutcome ⟨0, 0, ⟨0, 120, none, none, .ready⟩, "not-a-url",
          initialRateLimiterState⟩)
        initialCircuitBreakerState
      = ({ failures := 0, last_failure_time := 0, is_open := false },
         .returned ([], "Invalid channel URL: not-a-url")) := by
  have h := (C2_circuit_breaker_never_trips []).2.2
    ⟨0, 0, ⟨0, 120, none, none, .ready⟩, "not-a-url", initialRateLimiterState⟩
    initialCircuitBreakerState rfl
  rw [h]
  rfl

/-! ### C6: categorization partition -/

theorem addToCategory_website (cat : Option String) (u : String)
    (c : CategorizedLinks) : (addToCategory cat u c).website = c.website := by
  unfold addToCategory
  split <;> rfl

theorem count_allUrls_add (cat : Option String) (u : String)
    (c : CategorizedLinks) (x : String) :
    (allUrls (addToCategory cat u c)).count x = ((u :: allUrls c).count x) := by
  unfold addToCategory allUrls
  split <;> simp [List.count_append, List.count_cons] <;> ring

theorem categorize_links_website (links : List ExtractedLink) :
    (categorize_links links).website = [] := by
  induction links with
  | nil => rfl
  | cons l rest ih => simpa [categorize_links, addToCategory_website] using ih

theorem count_categorize (links : List ExtractedLink) (x : String) :
    (allUrls (categorize_links links)).count x
      = (links.map (fun l => l.url)).count x := by
  induction links with
  | nil => rfl
  | cons l rest ih =>
    simp only [categorize_links, List.map_cons]
    rw [count_allUrls_add]
    simp [List.count_cons, ih]

theorem count_assignColumns (c : CategorizedLinks) (x : String) :
    (allUrls (assignColumns c)).count x = (allUrls c).count x := by
  unfold assignColumns
  by_cases hW : c.website.isEmpty
  · rw [if_pos hW]
    have hW' : c.website = [] := by
      cases hcw : c.website with
      | nil => rfl
      | cons a t => rw [hcw] at hW; simp at hW
    cases hO : c.otherLinks with
    | nil => rfl
    | cons o os =>
      simp [allUrls, List.count_append, List.count_cons, hW', hO]
      ring
  · rw [if_neg hW]

/-- Claim C6: for every list of extracted links, after `categorize_links`
and the orchestrator's per-row column assignment, the seven columns'
URL lists form a permutation of the input URLs (each URL lands in
exactly one column, with multiplicity); the `Website` column holds at
most one URL; `categorize_links` itself never fills `Website`; and when
the uncategorized (`Other Links`) list is non-empty its first URL moves
to `Website` (which was empty) and the remainder stays in
`Other Links`. -/
theorem C6_categorize_partition (links : List ExtractedLink) :
    (allUrls (assignColumns (categorize_links links))).Perm
        (links.map (fun l => l.url))
    ∧ (assignColumns (categorize_links links)).website.length ≤ 1
    ∧ (categorize_links links).website = []
    ∧ (∀ o os, (categorize_links links).otherLinks = o :: os →
        (assignColumns (categorize_links links)).website = [o]
        ∧ (assignColumns (categorize_links links)).otherLinks = os)
    ∧ ((categorize_links links).otherLinks = [] →
        assignColumns (categorize_links links) = categorize_links links) := by
  refine ⟨?_, ?_, categorize_links_website links, ?_, ?_⟩
  · exact List.perm_iff_count.mpr
      (fun x => (count_assignColumns _ x).trans (count_categorize links x))
  · unfold assignColumns
    rw [categorize_links_website links]
    simp only [List.isEmpty_nil, if_true]
    split <;> simp [categorize_links_website]
  · intro o os h
    unfold assignColumns
    rw [categorize_links_website links, h]
    simp
  · intro h
    unfold assignColumns
    rw [categorize_links_website links, h]
    simp

/-- Witness for C6 at a concrete batch: a Facebook link plus two
uncategorized links; the first uncategorized URL is promoted to
`Website`, the second stays in `Other Links`. -/
theorem C6_witness :
    (assignColumns (categorize_links
        [⟨.str "fb", "https://facebook.com/x"⟩,
         ⟨.str "a", "https://example.org/a"⟩,
         ⟨.str "b", "https://example.org/b"⟩])).website
      = ["https://example.org/a"]
    ∧ (assignColumns (categorize_links
        [⟨.str "fb", "https://facebook.com/x"⟩,
         ⟨.str "a", "https://example.org/a"⟩,
         ⟨.str "b", "https://example.org/b"⟩])).otherLinks
      = ["https://example.org/b"] :=
  (C6_categorize_partition
      [⟨.str "fb", "https://facebook.com/x"⟩,
       ⟨.str "a", "https://example.org/a"⟩,
       ⟨.str "b", "https://example.org/b"⟩]).2.2.2.1
    "https://example.org/a" ["https://example.org/b"] (by rfl)

/-! ### C10: batch orchestrator isolation -/

/-- Claim C10: blank identifiers are skipped with the `Empty URL`
outcome independently of the fetch oracle; every item yields a triple
carrying its own index; an exception raised while processing an item is
caught and turned into that item's error triple; the batch always
produces one result per item (one row's failure never aborts the rest);
rows with links are never recorded as errors; and a link-less row whose
message carries the `No links found` text is not recorded as an error,
while other link-less rows are. -/
theorem C10_orchestrator_isolation :
    (∀ (fetch : String → Except PyExn (List ExtractedLink × String))
        (i : Nat) (v : CellValue), cellBlank v = true →
        process_single_url fetch (i, v) = (i, none, "Empty URL"))
    ∧ (∀ (fetch : String → Except PyExn (List ExtractedLink × String))
        (item : Nat × CellValue), (process_single_url fetch item).1 = item.1)
    ∧ (∀ (fetch : String → Except PyExn (List ExtractedLink × String))
        (i : Nat) (v : CellValue) (e : PyExn), cellBlank v = false →
        fetch (cellStr v) = .error e →
        process_single_url fetch (i, v) = (i, none, exnStr e))
    ∧ (∀ (fetch : String → Except PyExn (List ExtractedLink × String))
        (items : List (Nat × CellValue)),
        (process_rows fetch items).length = items.length
        ∧ ∀ item ∈ items, process_single_url fetch item ∈ process_rows fetch items)
    ∧ (∀ (fetch : String → Except PyExn (List ExtractedLink × String))
        (i : Nat) (v : CellValue) (msg : String) (links : List ExtractedLink),
        cellBlank v = false → fetch (cellStr v) = .ok (links, msg) →
        links.isEmpty = true → strContains msg "No links found" = true →
        rowError (process_single_url fetch (i, v)) = none)
    ∧ (∀ (i : Nat) (c : CategorizedLinks) (msg : String),
        rowError (i, some c, msg) = none) := by
  refine ⟨?_, ?_, ?_, ?_, ?_, ?_⟩
  · intro fetch i v hb
    simp [process_single_url, hb]
  · intro fetch item
    obtain ⟨i, v⟩ := item
    by_cases hb : cellBlank v
    · simp [process_single_url, hb]
    · simp only [process_single_url, Bool.not_eq_true] at hb ⊢
      rw [hb]
      simp only [Bool.false_eq_true, if_false]
      cases fetch (cellStr v) with
      | error e => rfl
      | ok p =>
        cases p with
        | mk links msg => by_cases h : links.isEmpty <;> simp [h]
  · intro fetch i v e hb hf
    simp [process_single_url, hb, hf]
  · intro fetch items
    constructor
    · simp [process_rows]
    · intro item hi
      exact List.mem_map_of_mem _ hi
  · intro fetch i v msg links hb hf hempty hmsg
    simp [process_single_url, hb, hf, hempty, rowError, hmsg]
  · intro i c msg
    rfl

/-- Witness for C10 at a concrete two-row batch with a raising fetch:
the blank row is skipped, the raising row is recorded as its own error
triple. -/
theorem C10_witness :
    process_single_url (fun _ => .error .typeError) (0, CellValue.strv "  ")
      = (0, none, "Empty URL")
    ∧ process_single_url (fun _ => .error .typeError)
        (1, CellValue.strv "https://youtube.com/c")
      = (1, none, exnStr .typeError) :=
  ⟨(C10_orchestrator_isolation).1 (fun _ => .error .typeError) 0
      (CellValue.strv "  ") (by rfl),
   (C10_orchestrator_isolation).2.2.1 (fun _ => .error .typeError) 1
      (CellValue.strv "https://youtube.com/c") .typeError (by rfl) rfl⟩

/-! ### C9: record-shape resolution robustness -/

/-- A record whose `channelExternalLinkViewModel` value is not a dict:
`link_info.get('title', {})` raises `AttributeError`, which the record
loop's `except (KeyError, IndexError, TypeError)` does not catch. -/
def badViewModelRecord : JValue := .obj [("channelExternalLinkViewModel", .num 5)]

/-- A well-shaped flat record that the loop would otherwise keep. -/
def goodFlatRecord : JValue :=
  .obj [("title", .str "Example"), ("url", .str "https://example.com/a")]

/-- Claim C9 (failing evaluation): on its own the flat record parses
fine, but putting the malformed view-model record in front makes
`parse_links_from_json` raise `AttributeError`, aborting the batch and
losing the good record — the per-record `except` clause misses
`AttributeError`, contradicting the skip-and-continue contract.  A
genuinely missing key is still recoverable (third conjunct: an empty
view-model dict is skipped and the following record survives). -/
theorem C9_attribute_error_aborts_batch :
    parse_links_from_json (.arr [goodFlatRecord])
      = .ok [⟨.str "Example", "https://example.com/a"⟩]
    ∧ parse_links_from_json (.arr [badViewModelRecord, goodFlatRecord])
      = .error .attributeError
    ∧ parse_links_from_json
        (.arr [.obj [("channelExternalLinkViewModel", .obj [])], goodFlatRecord])
      = .ok [⟨.str "Example", "https://example.com/a"⟩] :=
  ⟨rfl, rfl, rfl⟩

/-! ### C8: external-URL validation -/

/-- Claim C8 (counterexample): `http://yowww.utube.com/` is a well-formed
http URL whose host, after stripping a *leading* `www.` as the claim
reads, contains no excluded domain — the claim demands `true` — yet
`is_valid_external_url` returns `false`, because the source's
`domain.replace('www.', '')` removes the *interior* `www.` and the host
collapses to `youtube.com`. -/
theorem C8_counterexample :
    wellFormedHttpUrl "http://yowww.utube.com/" = true
    ∧ exclude_domains.all (fun d =>
        !containsSub
          (stripLeadingWww ⟨charsToLower (netlocChars "http://yowww.utube.com/".data)⟩).data
          d.data) = true
    ∧ is_valid_external_url "http://yowww.utube.com/" = false :=
  ⟨rfl, rfl, rfl⟩

/-- A well-formed http(s) URL (in the spec's sense) starts with `http`
and is non-empty. -/
theorem startsWithHttp_of_wellFormed (url : String)
    (h : wellFormedHttpUrl url = true) :
    startsWithHttp url = true ∧ url ≠ "" := by
  unfold wellFormedHttpUrl at h
  rw [Bool.and_eq_true] at h
  obtain ⟨hpre, _⟩ := h
  rw [Bool.or_eq_true] at hpre
  have hp : ∃ p : List Char, p.isPrefixOf url.data = true ∧ ['h', 't', 't', 'p'] <+: p := by
    rcases hpre with h | h
    · exact ⟨"http://".data, h, by decide⟩
    · exact ⟨"https://".data, h, by decide⟩
  obtain ⟨p, hp1, hp2⟩ := hp
  have htrans : ['h', 't', 't', 'p'] <+: url.data :=
    hp2.trans (List.isPrefixOf_iff_prefix.mp hp1)
  constructor
  · exact List.isPrefixOf_iff_prefix.mpr htrans
  · intro he
    rw [he] at htrans
    simp at htrans

/-- Claim C8 as amended: the host transformation is the removal of
*every* occurrence of `www.` from the lower-cased netloc (not just a
leading one), and the source's bare `except: return False` also maps the
`ValueError` that `urlparse` raises on an unbalanced-bracket netloc to
`false`.  So: false on empty or non-`http` input; false when `urlparse`
raises; false whenever some excluded domain is a substring of the
transformed host; and true for every well-formed http(s) URL whose host
is a plain (bracket-free) name with no excluded substring.  (The
bracket-free hypothesis keeps the positive clause inside the fragment
where CPython, in every version, does not raise.) -/
theorem C8_amended_validation (url : String) :
    ((url = "" ∨ startsWithHttp url = false) → is_valid_external_url url = false)
    ∧ (urlsplitRaises url.data = true → is_valid_external_url url = false)
    ∧ ((∃ d ∈ exclude_domains,
          containsSub (removeWwwAll (charsToLower (netlocChars url.data))) d.data = true) →
        is_valid_external_url url = false)
    ∧ (wellFormedHttpUrl url = true →
        (netlocChars url.data).contains '[' = false →
        (netlocChars url.data).contains ']' = false →
        (∀ d ∈ exclude_domains,
          containsSub (removeWwwAll (charsToLower (netlocChars url.data))) d.data = false) →
        is_valid_external_url url = true) := by
  have hdata : url.data.isEmpty = true ↔ url = "" := by
    cases url with
    | mk l =>
      cases l with
      | nil => simp
      | cons a t =>
        simp only [List.isEmpty_cons]
        constructor
        · intro h; exact absurd h (by simp)
        · intro h
          have : (String.mk (a :: t)).data = ("" : String).data := by rw [h]
          simp at this
  refine ⟨?_, ?_, ?_, ?_⟩
  · rintro (h | h)
    · simp [is_valid_external_url, hdata.mpr h]
    · by_cases he : url.data.isEmpty
      · simp [is_valid_external_url, he]
      · simp [is_valid_external_url, he, h]
  · intro hr
    by_cases he : url.data.isEmpty
    · simp [is_valid_external_url, he]
    · by_cases hh : startsWithHttp url
      · simp [is_valid_external_url, he, hh, hr]
      · simp [is_valid_external_url, he, hh]
  · rintro ⟨d, hd, hc⟩
    by_cases he : url.data.isEmpty
    · simp [is_valid_external_url, he]
    · by_cases hh : startsWithHttp url
      · have hany : exclude_domains.any
            (fun ex => containsSub (removeWwwAll (charsToLower (netlocChars url.data))) ex.data)
              = true :=
          List.any_eq_true.mpr ⟨d, hd, hc⟩
        simp [is_valid_external_url, he, hh, hany]
      · simp [is_valid_external_url, he, hh]
  · intro hwf hb1 hb2 hall
    obtain ⟨hh, hne⟩ := startsWithHttp_of_wellFormed url hwf
    have he : url.data.isEmpty = false := by
      cases h : url.data.isEmpty
      · rfl
      · exact absurd (hdata.mp h) hne
    have hr : urlsplitRaises url.data = false := by
      show (((netlocChars url.data).contains '[' && !(netlocChars url.data).contains ']')
          || ((netlocChars url.data).contains ']' && !(netlocChars url.data).contains '['))
        = false
      rw [hb1, hb2]
      rfl
    have hany : exclude_domains.any
        (fun ex => containsSub (removeWwwAll (charsToLower (netlocChars url.data))) ex.data)
          = false := by
      cases h : exclude_domains.any
          (fun ex => containsSub (removeWwwAll (charsToLower (netlocChars url.data))) ex.data)
      · rfl
      · obtain ⟨d, hd, hc⟩ := List.any_eq_true.mp h
        rw [hall d hd] at hc
        exact absurd hc (by simp)
    simp [is_valid_external_url, he, hh, hr, hany]

/-- Witness for C8 (amended) at concrete URLs: an ordinary external URL
validates, an excluded-domain URL does not, and an unbalanced-bracket
URL (where `urlparse` raises) does not. -/
theorem C8_witness :
    is_valid_external_url "https://example.org/x" = true
    ∧ is_valid_external_url "https://www.youtube.com/watch" = false
    ∧ is_valid_external_url "http://[::1" = false :=
  ⟨(C8_amended_validation "https://example.org/x").2.2.2 (by rfl) (by rfl)
      (by rfl) (by decide),
   (C8_amended_validation "https://www.youtube.com/watch").2.2.1
      ⟨"youtube.com", by decide, by rfl⟩,
   (C8_amended_validation "http://[::1").2.1 (by rfl)⟩

/-! ### C1: URL guarantees of the extraction pipeline -/

theorem appendIfValid_valid (t c : JValue) (l : ExtractedLink)
    (h : appendIfValid t c = .ok (some l)) : is_valid_external_url l.url = true := by
  unfold appendIfValid at h
  by_cases htc : pyTruthy c
  · rw [if_pos htc] at h
    cases c with
    | str s =>
      have h2 : (if is_valid_external_url s = true then
            Except.ok (some (⟨t, s⟩ : ExtractedLink))
          else Except.ok none) = Except.ok (some l) := h
      by_cases hv : is_valid_external_url s = true
      · rw [if_pos hv] at h2
        injection h2 with h'
        injection h' with h''
        rw [← h'']
        exact hv
      · rw [if_neg hv] at h2
        simp at h2
    | null => simp at h
    | bool b => simp at h
    | num q => simp at h
    | arr xs => simp at h
    | obj kvs => simp at h
  · rw [if_neg htc] at h
    simp at h

theorem finishRecord_valid (t u : JValue) (l : ExtractedLink)
    (h : finishRecord t u = .ok (some l)) : is_valid_external_url l.url = true := by
  unfold finishRecord at h
  by_cases htu : pyTruthy u
  · rw [if_pos htu] at h
    cases hin : pyIn "/redirect?" u with
    | error e => rw [hin] at h; simp at h
    | ok hr => rw [hin] at h; exact appendIfValid_valid t _ l h
  · rw [if_neg htu] at h
    simp at h

theorem interpretRecord_valid (item : JValue) (l : ExtractedLink)
    (h : interpretRecord item = .ok (some l)) : is_valid_external_url l.url = true := by
  unfold interpretRecord at h
  cases hr : recordTitleUrl item with
  | error e => rw [hr] at h; simp at h
  | ok p =>
    rw [hr] at h
    obtain ⟨t, u⟩ := p
    exact finishRecord_valid t u l h

theorem parseLinksLoop_valid (items : List JValue) (ls : List ExtractedLink)
    (h : parseLinksLoop items = .ok ls) :
    ∀ l ∈ ls, is_valid_external_url l.url = true := by
  induction items generalizing ls with
  | nil =>
    unfold parseLinksLoop at h
    injection h with h'
    subst h'
    intro l hl
    simp at hl
  | cons item rest ih =>
    unfold parseLinksLoop at h
    cases hi : interpretRecord item with
    | ok o =>
      cases o with
      | some l0 =>
        simp only [hi] at h
        cases hrest : parseLinksLoop rest with
        | ok ls' =>
          simp only [hrest] at h
          injection h with h'
          subst h'
          intro l hl
          rcases List.mem_cons.mp hl with rfl | hl'
          · exact interpretRecord_valid item l hi
          · exact ih ls' hrest l hl'
        | error e =>
          simp only [hrest] at h
          exact absurd h (by simp)
      | none =>
        simp only [hi] at h
        exact ih ls h
    | error e =>
      simp only [hi] at h
      by_cases hc : e.caughtByRecordLoop
      · rw [if_pos hc] at h
        exact ih ls h
      · rw [if_neg hc] at h
        simp at h

theorem parse_links_from_json_valid (v : JValue) (ls : List ExtractedLink)
    (h : parse_links_from_json v = .ok ls) :
    ∀ l ∈ ls, is_valid_external_url l.url = true := by
  cases v with
  | arr items => exact parseLinksLoop_valid items ls h
  | null => injection h with h'; subst h'; intro l hl; simp at hl
  | bool b => injection h with h'; subst h'; intro l hl; simp at hl
  | num q => injection h with h'; subst h'; intro l hl; simp at hl
  | str s => injection h with h'; subst h'; intro l hl; simp at hl
  | obj kvs => injection h with h'; subst h'; intro l hl; simp at hl

theorem jsonMethod_valid (d : Driver) (ps : List String) (ls : List ExtractedLink)
    (msg : String) (h : jsonMethod d ps = .ok (some (ls, msg))) :
    ∀ l ∈ ls, is_valid_external_url l.url = true := by
  induction ps with
  | nil => simp [jsonMethod] at h
  | cons p rest ih =>
    unfold jsonMethod at h
    cases hsp : d.searchPattern p with
    | none =>
      simp only [hsp] at h
      exact ih h
    | some jt =>
      simp only [hsp] at h
      cases hld : d.loadsJson jt with
      | none =>
        simp only [hld] at h
        exact ih h
      | some data =>
        simp only [hld] at h
        cases hf : find_links_in_json_enhanced data with
        | error e =>
          simp only [hf] at h
          exact absurd h (by simp)
        | ok fo =>
          simp only [hf] at h
          cases fo with
          | none => exact ih h
          | some links_data =>
            cases ht : pyTruthy links_data with
            | false =>
              simp only [ht, Bool.false_eq_true, if_false] at h
              exact ih h
            | true =>
              simp only [ht, if_true] at h
              cases hp : parse_links_from_json links_data with
              | error e =>
                simp only [hp] at h
                exact absurd h (by simp)
              | ok links =>
                simp only [hp, Except.ok.injEq, Option.some.injEq,
                  Prod.mk.injEq] at h
                obtain ⟨hls, _⟩ := h
                rw [← hls]
                exact parse_links_from_json_valid links_data links hp

theorem processElement_guarantee (e : DomElement) (l : ExtractedLink)
    (h : processElement e = some l) :
    is_valid_external_url l.url = true
    ∨ (startsWithHttp l.url = true ∧ strContains l.url "youtube.com" = false) := by
  unfold processElement at h
  cases he : e.href with
  | none =>
    simp only [he] at h
    exact absurd h (by simp)
  | some href =>
    simp only [he] at h
    by_cases h0 : href = ""
    · rw [if_pos h0] at h; simp at h
    · rw [if_neg h0] at h
      by_cases hred :
          (strContains href "/redirect?" || strContains href "youtube.com/redirect") = true
      · rw [if_pos hred] at h
        cases hcu : extract_clean_url href with
        | none =>
          simp only [hcu] at h
          exact absurd h (by simp)
        | some clean =>
          simp only [hcu] at h
          by_cases hc : (clean ≠ "" && is_valid_external_url clean) = true
          · rw [if_pos hc] at h
            injection h with h'
            rw [← h']
            left
            rw [Bool.and_eq_true] at hc
            exact hc.2
          · rw [if_neg hc] at h; simp at h
      · rw [if_neg hred] at h
        by_cases hh : (startsWithHttp href && !strContains href "youtube.com") = true
        · rw [if_pos hh] at h
          injection h with h'
          rw [← h']
          right
          rw [Bool.and_eq_true] at hh
          exact ⟨hh.1, by simpa using hh.2⟩
        · rw [if_neg hh] at h; simp at h

theorem domMethod_guarantee (d : Driver) (sels : List String)
    (ls : List ExtractedLink) (msg : String)
    (h : domMethod d sels = some (ls, msg)) :
    ∀ l ∈ ls,
      is_valid_external_url l.url = true
      ∨ (startsWithHttp l.url = true ∧ strContains l.url "youtube.com" = false) := by
  induction sels with
  | nil => simp [domMethod] at h
  | cons sel rest ih =>
    simp only [domMethod] at h
    by_cases he : (d.findElements sel).isEmpty
    · rw [if_pos he] at h
      exact ih h
    · rw [if_neg he] at h
      by_cases hx : (((d.findElements sel).take 10).filterMap processElement).isEmpty
      · rw [if_pos hx] at h
        exact ih h
      · rw [if_neg hx] at h
        injection h with h'
        have hls : ((d.findElements sel).take 10).filterMap processElement = ls :=
          congrArg Prod.fst h'
        intro l hl
        rw [← hls] at hl
        obtain ⟨e, _, hp⟩ := List.mem_filterMap.mp hl
        exact processElement_guarantee e l hp

/-- Claim C1 as amended: every link the pipeline returns either passes
`is_valid_external_url` (always the case for records built by
`parse_links_from_json`, i.e. by the JSON method, and for
redirect-decoded DOM records) or — for the plain-href DOM branch, which
skips `is_valid_external_url` — merely starts with `http` and does not
contain the substring `youtube.com`. -/
theorem C1_amended_url_guarantees (d : Driver) (ls : List ExtractedLink)
    (msg : String) (h : extract_links_multiple_methods d = .ok (ls, msg)) :
    ∀ l ∈ ls,
      is_valid_external_url l.url = true
      ∨ (startsWithHttp l.url = true ∧ strContains l.url "youtube.com" = false) := by
  unfold extract_links_multiple_methods at h
  cases hj : jsonMethod d enhanced_patterns with
  | error e =>
    simp only [hj] at h
    exact absurd h (by simp)
  | ok o =>
    simp only [hj] at h
    cases o with
    | some r =>
      injection h with h'
      intro l hl
      left
      refine jsonMethod_valid d enhanced_patterns ls msg ?_ l hl
      rw [hj, h']
    | none =>
      cases hd : domMethod d link_selectors with
      | some r =>
        simp only [hd] at h
        injection h with h'
        intro l hl
        refine domMethod_guarantee d link_selectors ls msg ?_ l hl
        rw [hd, h']
      | none =>
        simp only [hd] at h
        injection h with h'
        cases h'
        intro l hl
        simp at hl

/-- The driver exhibiting the counterexample: no `ytInitialData` pattern
matches and the `.channel-external-link` selector yields one element
whose href is a `youtu.be` URL (no `/redirect?`, no `youtube.com`
substring). -/
def domOnlyDriver : Driver :=
  { page_source := "<html>about</html>"
    searchPattern := fun _ => none
    loadsJson := fun _ => none
    findElements := fun sel =>
      if sel = ".channel-external-link" then
        [{ textContent := "A", ariaLabel := none, titleAttr := none,
           href := some "https://youtu.be/cats" }]
      else [] }

/-- Claim C1 (counterexample): the DOM method returns a record whose URL
fails `is_valid_external_url` (its host `youtu.be` is on the exclusion
list), because the plain-href branch of method 2 never calls the
validator. -/
theorem C1_counterexample :
    extract_links_multiple_methods domOnlyDriver
      = .ok ([⟨.str "A", "https://youtu.be/cats"⟩],
             "Success (DOM method with .channel-external-link)")
    ∧ is_valid_external_url "https://youtu.be/cats" = false :=
  ⟨rfl, rfl⟩

/-- Witness for the amended C1 at the counterexample driver: the
returned URL satisfies the weakened (right) disjunct. -/
theorem C1_witness :
    is_valid_external_url "https://youtu.be/cats" = true
    ∨ (startsWithHttp "https://youtu.be/cats" = true
       ∧ strContains "https://youtu.be/cats" "youtube.com" = false) :=
  C1_amended_url_guarantees domOnlyDriver
    [⟨.str "A", "https://youtu.be/cats"⟩]
    "Success (DOM method with .channel-external-link)" rfl
    ⟨.str "A", "https://youtu.be/cats"⟩ (List.mem_singleton.mpr rfl)

/-! ### C7: redirect decoding -/

theorem hexVal_hexDigitUpper : ∀ n < 16, hexVal (hexDigitUpper n) = some n := by
  decide

theorem hexDigitUpper_not_special : ∀ n < 16,
    hexDigitUpper n ≠ '#' ∧ hexDigitUpper n ≠ '?' ∧ hexDigitUpper n ≠ '&'
    ∧ hexDigitUpper n ≠ '=' ∧ hexDigitUpper n ≠ '+' ∧ hexDigitUpper n ≠ '%' := by
  decide

theorem unreserved_not_special (c : Char) (h : isUnreservedChar c = true) :
    c ≠ '#' ∧ c ≠ '?' ∧ c ≠ '&' ∧ c ≠ '=' ∧ c ≠ '+' ∧ c ≠ '%' := by
  refine ⟨?_, ?_, ?_, ?_, ?_, ?_⟩ <;> (intro he; subst he; revert h; decide)

/-- Every character of a percent-encoded ASCII character avoids the URL
metacharacters `#`, `?`, `&`, `=`, `+` (and `%` only leads escapes). -/
theorem percentEncodeChar_not_special (c : Char) (hc : c.toNat < 128) :
    ∀ x ∈ percentEncodeChar c,
      x ≠ '#' ∧ x ≠ '?' ∧ x ≠ '&' ∧ x ≠ '=' ∧ x ≠ '+' := by
  intro x hx
  unfold percentEncodeChar at hx
  by_cases hu : isUnreservedChar c = true
  · rw [if_pos hu] at hx
    simp only [List.mem_singleton] at hx
    rw [hx]
    have := unreserved_not_special c hu
    exact ⟨this.1, this.2.1, this.2.2.1, this.2.2.2.1, this.2.2.2.2.1⟩
  · rw [if_neg hu] at hx
    have hd : c.toNat / 16 < 16 := by omega
    have hm : c.toNat % 16 < 16 := Nat.mod_lt _ (by norm_num)
    simp only [List.mem_cons, List.mem_singleton] at hx
    rcases hx with rfl | rfl | rfl | hx
    · refine ⟨?_, ?_, ?_, ?_, ?_⟩ <;> decide
    · have := hexDigitUpper_not_special _ hd
      exact ⟨this.1, this.2.1, this.2.2.1, this.2.2.2.1, this.2.2.2.2.1⟩
    · have := hexDigitUpper_not_special _ hm
      exact ⟨this.1, this.2.1, this.2.2.1, this.2.2.2.1, this.2.2.2.2.1⟩
    · simp at hx

theorem percentEncode_not_special (u : String) (hA : ∀ c ∈ u.data, c.toNat < 128) :
    ∀ x ∈ (percentEncode u).data,
      x ≠ '#' ∧ x ≠ '?' ∧ x ≠ '&' ∧ x ≠ '=' ∧ x ≠ '+' := by
  intro x hx
  simp only [percentEncode, List.mem_flatten, List.mem_map] at hx
  obtain ⟨lx, ⟨c, hcu, rfl⟩, hxl⟩ := hx
  exact percentEncodeChar_not_special c (hA c hcu) x hxl

theorem percentEncodeChar_ne_nil (c : Char) : percentEncodeChar c ≠ [] := by
  unfold percentEncodeChar
  split <;> simp

theorem unquoteChars_cons_of_ne (c : Char) (h : c ≠ '%') (l : List Char) :
    unquoteChars (c :: l) = c :: unquoteChars l := by
  conv_lhs => rw [unquoteChars.eq_def]
  simp only [h, if_false]

theorem unquoteChars_escape (a b : Char) (hi lo : Nat) (l : List Char)
    (ha : hexVal a = some hi) (hb : hexVal b = some lo) :
    unquoteChars ('%' :: a :: b :: l)
      = Char.ofNat (16 * hi + lo) :: unquoteChars l := by
  conv_lhs => rw [unquoteChars.eq_def]
  simp [ha, hb]

/-- Decoding inverts encoding on ASCII character lists. -/
theorem unquoteChars_percentEncode (l : List Char) (hA : ∀ c ∈ l, c.toNat < 128) :
    unquoteChars ((l.map percentEncodeChar).flatten) = l := by
  induction l with
  | nil => rfl
  | cons c t ih =>
    have hc : c.toNat < 128 := hA c (List.mem_cons_self c t)
    have ht : ∀ x ∈ t, x.toNat < 128 := fun x hx => hA x (List.mem_cons_of_mem c hx)
    simp only [List.map_cons, List.flatten_cons]
    by_cases hu : isUnreservedChar c = true
    · have hpc : percentEncodeChar c = [c] := by
        unfold percentEncodeChar; rw [if_pos hu]
      have hne : c ≠ '%' := (unreserved_not_special c hu).2.2.2.2.2
      rw [hpc]
      simp only [List.singleton_append]
      rw [unquoteChars_cons_of_ne c hne, ih ht]
    · have hpc : percentEncodeChar c
          = ['%', hexDigitUpper (c.toNat / 16), hexDigitUpper (c.toNat % 16)] := by
        unfold percentEncodeChar; rw [if_neg hu]
      have hdiv : c.toNat / 16 < 16 := by omega
      have hmod : c.toNat % 16 < 16 := Nat.mod_lt _ (by norm_num)
      rw [hpc]
      simp only [List.cons_append, List.nil_append]
      rw [unquoteChars_escape _ _ _ _ _
            (hexVal_hexDigitUpper _ hdiv) (hexVal_hexDigitUpper _ hmod),
          Nat.div_add_mod, Char.ofNat_toNat, ih ht]

theorem unquoteChars_of_no_percent (l : List Char) (h : '%' ∉ l) :
    unquoteChars l = l := by
  induction l with
  | nil => rfl
  | cons c t ih =>
    have hc : c ≠ '%' := fun he => h (he ▸ List.mem_cons_self c t)
    rw [unquoteChars_cons_of_ne c hc, ih (fun hm => h (List.mem_cons_of_mem c hm))]

theorem plusToSpace_of_no_plus (l : List Char) (h : ∀ x ∈ l, x ≠ '+') :
    plusToSpace l = l := by
  induction l with
  | nil => rfl
  | cons c t ih =>
    have hb : (c == '+') = false := beq_eq_false_iff_ne.mpr (h c (List.mem_cons_self c t))
    simp only [plusToSpace, List.map_cons, hb, Bool.false_eq_true, if_false]
    have := ih (fun x hx => h x (List.mem_cons_of_mem c hx))
    simp only [plusToSpace] at this
    rw [this]

theorem takeUntil_of_not_mem (c : Char) (l : List Char) (h : ∀ x ∈ l, x ≠ c) :
    takeUntil c l = l := by
  induction l with
  | nil => rfl
  | cons a t ih =>
    have hb : (a != c) = true := bne_iff_ne.mpr (h a (List.mem_cons_self a t))
    simp only [takeUntil, List.takeWhile_cons, hb, if_true]
    have := ih (fun x hx => h x (List.mem_cons_of_mem a hx))
    simp only [takeUntil] at this
    rw [this]

theorem dropThrough_append (c : Char) (l1 l2 : List Char) (h : ∀ x ∈ l1, x ≠ c) :
    dropThrough c (l1 ++ c :: l2) = l2 := by
  induction l1 with
  | nil =>
    simp [dropThrough, List.dropWhile_cons]
  | cons a t ih =>
    have hb : (a != c) = true := bne_iff_ne.mpr (h a (List.mem_cons_self a t))
    simp only [List.cons_append, dropThrough, List.dropWhile_cons, hb, if_true]
    have := ih (fun x hx => h x (List.mem_cons_of_mem a hx))
    simp only [dropThrough] at this
    rw [this]

theorem charSplit_of_not_mem (sep : Char) (l : List Char) (h : ∀ x ∈ l, x ≠ sep) :
    charSplit sep l = [l] := by
  induction l with
  | nil => rfl
  | cons a t ih =>
    have hb : (a == sep) = false :=
      beq_eq_false_iff_ne.mpr (h a (List.mem_cons_self a t))
    have ht := ih (fun x hx => h x (List.mem_cons_of_mem a hx))
    simp only [charSplit, hb, Bool.false_eq_true, if_false, ht]

theorem percentEncode_ne_nil (u : String) (h : u ≠ "") :
    (percentEncode u).data ≠ [] := by
  cases hu : u.data with
  | nil =>
    exact absurd (by cases u with | mk l => cases hu; rfl) h
  | cons c t =>
    simp only [percentEncode, hu, List.map_cons, List.flatten_cons]
    intro hcontra
    exact percentEncodeChar_ne_nil c (List.append_eq_nil.mp hcontra).1

/-- Claim C7 as amended: the round trip holds for every non-empty ASCII
destination that contains no `%` — on such input the double decoding
(one inside `parse_qs`, one explicit `unquote`) is harmless; and any
input whose parsed query has no `q` parameter yields `None`. -/
theorem C7_amended_round_trip (u : String) (hA : ∀ c ∈ u.data, c.toNat < 128)
    (hP : '%' ∉ u.data) (hne : u ≠ "") :
    extract_clean_url ("https://site/redirect?q=" ++ percentEncode u) = some u
    ∧ (∀ url : String, qsFirst (queryChars url.data) "q" = none →
        extract_clean_url url = none) := by
  have hspec := percentEncode_not_special u hA
  constructor
  · have hdata : ("https://site/redirect?q=" ++ percentEncode u).data
        = "https://site/redirect".data ++ '?' :: 'q' :: '=' :: (percentEncode u).data := by
      show "https://site/redirect?q=".data ++ (percentEncode u).data = _
      have hsplitP : "https://site/redirect?q=".data
          = "https://site/redirect".data ++ ['?', 'q', '='] := by decide
      rw [hsplitP, List.append_assoc]
      rfl
    have hq : queryChars ("https://site/redirect?q=" ++ percentEncode u).data
        = 'q' :: '=' :: (percentEncode u).data := by
      rw [hdata]
      unfold queryChars
      rw [takeUntil_of_not_mem]
      · exact dropThrough_append '?' _ _ (by decide)
      · intro x hx
        rcases List.mem_append.mp hx with h | h
        · revert h
          have : ∀ y ∈ "https://site/redirect".data, y ≠ '#' := by decide
          exact this x
        · rcases List.mem_cons.mp h with rfl | h
          · decide
          · rcases List.mem_cons.mp h with rfl | h
            · decide
            · rcases List.mem_cons.mp h with rfl | h
              · decide
              · exact (hspec x h).1
    have hene : (percentEncode u).data ≠ [] := percentEncode_ne_nil u hne
    have hfield : qslField ('q' :: '=' :: (percentEncode u).data)
        = some ("q", ⟨unquoteChars (plusToSpace (percentEncode u).data)⟩) := by
      unfold qslField
      have hsplit : splitAtFirst '=' ('q' :: '=' :: (percentEncode u).data)
          = some (['q'], (percentEncode u).data) := rfl
      rw [hsplit]
      have h2 : ((percentEncode u).data).isEmpty = false := by
        cases hp : (percentEncode u).data
        · exact absurd hp hene
        · rfl
      simp only [List.isEmpty_cons, Bool.false_eq_true, if_false, h2]
      rfl
    have hqsl : parse_qsl ('q' :: '=' :: (percentEncode u).data)
        = [("q", ⟨unquoteChars (plusToSpace (percentEncode u).data)⟩)] := by
      unfold parse_qsl
      rw [charSplit_of_not_mem '&']
      · simp [List.filterMap_cons, hfield]
      · intro x hx
        rcases List.mem_cons.mp hx with rfl | hx
        · decide
        · rcases List.mem_cons.mp hx with rfl | hx
          · decide
          · exact (hspec x hx).2.2.1
    have hval : (⟨unquoteChars (plusToSpace (percentEncode u).data)⟩ : String) = u := by
      rw [plusToSpace_of_no_plus _ (fun x hx => (hspec x hx).2.2.2.2)]
      show (⟨unquoteChars ((u.data.map percentEncodeChar).flatten)⟩ : String) = u
      rw [unquoteChars_percentEncode u.data hA]
    unfold extract_clean_url
    rw [hq]
    unfold qsFirst
    rw [hqsl, hval]
    have hfind : List.find? (fun p => p.1 == "q") [("q", u)] = some ("q", u) :=
      List.find?_cons_of_pos _ (show (("q", u).1 == "q") = true from rfl)
    rw [hfind]
    show some (unquote u) = some u
    unfold unquote
    rw [unquoteChars_of_no_percent u.data hP]
  · intro url h
    unfold extract_clean_url
    rw [h]
    split <;> rfl

/-- Claim C7 (counterexample): for the destination `http://a.com/%41` —
a URL containing a percent-escape — the redirect round trip does not
return the destination: `parse_qs` decodes the `q` value once (yielding
the destination exactly), and the source's extra `unquote` decodes its
`%41` again, returning `http://a.com/A`. -/
theorem C7_counterexample :
    extract_clean_url ("https://site/redirect?q=" ++ percentEncode "http://a.com/%41")
      = some "http://a.com/A"
    ∧ ("http://a.com/A" : String) ≠ "http://a.com/%41" :=
  ⟨rfl, by decide⟩

/-- Witness for the amended C7 at a concrete percent-free destination. -/
theorem C7_witness :
    extract_clean_url ("https://site/redirect?q=" ++ percentEncode "https://example.org/a")
      = some "https://example.org/a" :=
  (C7_amended_round_trip "https://example.org/a" (by decide) (by decide)
    (by decide)).1
